import Mathlib

/-!
Verification development for the pose-to-skeleton retargeting engine of the
`particle` repository (main source: `frontend/particle/js/modelCharacter.js`).

Conventions of the shallow embedding:
* JavaScript numbers are modelled as exact rationals (`ℚ`); decimal literals
  of the source (`0.5`, `0.3`, `0.25`) become the corresponding rationals.
* The transcendental math kernels of the external three.js library
  (`Quaternion.slerp`, `Quaternion.setFromUnitVectors`, `Vector3.normalize`,
  `Math.asin`, `Euler`-to-quaternion conversion) are irrational-valued and are
  therefore abstracted as parameters (`MathK` below); all polynomial three.js
  operations (vector add/sub/scale, the Hamilton product of quaternions) are
  implemented exactly.  `Math.PI` is likewise passed as a parameter where it
  occurs (yaw wrapping).
* JavaScript objects used as string-keyed dictionaries become functions
  `String → Option _`; an absent key is `none`.
* Mutation of `this.…` fields becomes explicit state passing on record types.
-/

/-! ## String utilities

`bone.name.toLowerCase().replace(/[^a-z0-9]/g, '')` (modelCharacter.js:487)
and JavaScript's `String.prototype.includes`. -/

/-- Character kept by the regex `[^a-z0-9]` replacement: an ASCII lower-case
letter or digit (the name was lower-cased first). -/
def keepAlnum (c : Char) : Bool := c.isLower || c.isDigit

/-- Embedding of `name.toLowerCase().replace(/[^a-z0-9]/g, '')`
(modelCharacter.js:487): lower-case every character, then keep only the
characters matched by `[a-z0-9]`.  Bone names are ASCII, where
`Char.toLower` agrees with JavaScript `toLowerCase`. -/
def normalizeName (s : String) : String :=
  String.mk ((s.toList.map Char.toLower).filter keepAlnum)

/-- Helper for substring containment: does `hay` start with `needle`? -/
def startsWithCL : List Char → List Char → Bool
  | _, [] => true
  | [], _ :: _ => false
  | c :: cs, d :: ds => c = d && startsWithCL cs ds

/-- Helper for substring containment on character lists. -/
def hasSubCL : List Char → List Char → Bool
  | [], needle => needle.isEmpty
  | c :: t, needle => startsWithCL (c :: t) needle || hasSubCL t needle

/-- Embedding of JavaScript `s.includes(sub)` (substring containment). -/
def strIncludes (s sub : String) : Bool := hasSubCL s.toList sub.toList

/-! ## Exact three.js data (vectors, quaternions) -/

/-- A three.js `Vector3` with exact rational coordinates. -/
structure Vec3 where
  x : ℚ
  y : ℚ
  z : ℚ
deriving DecidableEq

/-- A three.js `Quaternion` with exact rational coordinates. -/
structure Quat where
  x : ℚ
  y : ℚ
  z : ℚ
  w : ℚ
deriving DecidableEq

/-- three.js `Vector3.addVectors`. -/
def vadd (a b : Vec3) : Vec3 := ⟨a.x + b.x, a.y + b.y, a.z + b.z⟩

/-- three.js `Vector3.subVectors`. -/
def vsub (a b : Vec3) : Vec3 := ⟨a.x - b.x, a.y - b.y, a.z - b.z⟩

/-- three.js `Vector3.multiplyScalar`. -/
def vscale (s : ℚ) (a : Vec3) : Vec3 := ⟨a.x * s, a.y * s, a.z * s⟩

/-- three.js `a.multiply(b)` = `multiplyQuaternions(a, b)`: the Hamilton
product with `a` as the left factor (exact polynomial operation). -/
def qmul (a b : Quat) : Quat :=
  ⟨a.x * b.w + a.w * b.x + a.y * b.z - a.z * b.y,
   a.y * b.w + a.w * b.y + a.z * b.x - a.x * b.z,
   a.z * b.w + a.w * b.z + a.x * b.y - a.y * b.x,
   a.w * b.w - a.x * b.x - a.y * b.y - a.z * b.z⟩

/-! ## Bone alias table and name resolution (modelCharacter.js:61-100, 486-538) -/

/-- The static `BONE_ALIASES` table (modelCharacter.js:61-100) as an ordered
association list; `Object.entries` enumerates these string keys in insertion
order, which is the order below. -/
def BONE_ALIASES : List (String × String) :=
  [("hips", "hips"), ("pelvis", "hips"), ("root", "hips"),
   ("spine", "spine"), ("spine1", "spine1"), ("spine2", "spine2"),
   ("chest", "chest"), ("upperchest", "chest"),
   ("neck", "neck"),
   ("head", "head"),
   ("leftshoulder", "leftShoulder"), ("shoulderl", "leftShoulder"), ("lshoulder", "leftShoulder"),
   ("leftarm", "leftUpperArm"), ("leftupperarm", "leftUpperArm"), ("upperarml", "leftUpperArm"), ("lupperarm", "leftUpperArm"),
   ("leftforearm", "leftForeArm"), ("forearml", "leftForeArm"), ("lforearm", "leftForeArm"),
   ("lefthand", "leftHand"), ("handl", "leftHand"), ("lhand", "leftHand"),
   ("rightshoulder", "rightShoulder"), ("shoulderr", "rightShoulder"), ("rshoulder", "rightShoulder"),
   ("rightarm", "rightUpperArm"), ("rightupperarm", "rightUpperArm"), ("upperarmr", "rightUpperArm"), ("rupperarm", "rightUpperArm"),
   ("rightforearm", "rightForeArm"), ("forearmr", "rightForeArm"), ("rforearm", "rightForeArm"),
   ("righthand", "rightHand"), ("handr", "rightHand"), ("rhand", "rightHand"),
   ("leftupleg", "leftUpLeg"), ("leftthigh", "leftUpLeg"), ("thighl", "leftUpLeg"), ("lthigh", "leftUpLeg"),
   ("leftleg", "leftLeg"), ("leftshin", "leftLeg"), ("shinl", "leftLeg"), ("lshin", "leftLeg"), ("leftlowleg", "leftLeg"),
   ("leftfoot", "leftFoot"), ("footl", "leftFoot"), ("lfoot", "leftFoot"),
   ("rightupleg", "rightUpLeg"), ("rightthigh", "rightUpLeg"), ("thighr", "rightUpLeg"), ("rthigh", "rightUpLeg"),
   ("rightleg", "rightLeg"), ("rightshin", "rightLeg"), ("shinr", "rightLeg"), ("rshin", "rightLeg"), ("rightlowleg", "rightLeg"),
   ("rightfoot", "rightFoot"), ("footr", "rightFoot"), ("rfoot", "rightFoot"),
   ("mixamorigleftarm", "leftUpperArm"),
   ("mixamorigrightarm", "rightUpperArm"),
   ("mixamorigleftforearm", "leftForeArm"),
   ("mixamorigrightforearm", "rightForeArm"),
   ("mixamorigleftupleg", "leftUpLeg"),
   ("mixamorigrightupleg", "rightUpLeg"),
   ("mixamorigleftleg", "leftLeg"),
   ("mixamorigrightleg", "rightLeg")]

/-- The ordered fuzzy-matching chain of `mapBone` (modelCharacter.js:504-528),
run on the normalized name when no alias matched. -/
def heuristicResolve (name : String) : Option String :=
  if strIncludes name ("hip") || strIncludes name ("pelvis") then some ("hips")
  else if strIncludes name ("spine") then some ("spine")
  else if strIncludes name ("chest") || strIncludes name ("torso") then some ("chest")
  else if strIncludes name ("neck") then some ("neck")
  else if strIncludes name ("head") && !(strIncludes name ("end")) then some ("head")
  else if strIncludes name ("shoulder") && (strIncludes name ("l") || strIncludes name ("left")) then some ("leftShoulder")
  else if strIncludes name ("shoulder") && (strIncludes name ("r") || strIncludes name ("right")) then some ("rightShoulder")
  else if (strIncludes name ("arm") || strIncludes name ("upper")) && (strIncludes name ("l") || strIncludes name ("left")) && !(strIncludes name ("fore")) then some ("leftUpperArm")
  else if (strIncludes name ("arm") || strIncludes name ("upper")) && (strIncludes name ("r") || strIncludes name ("right")) && !(strIncludes name ("fore")) then some ("rightUpperArm")
  else if strIncludes name ("fore") && (strIncludes name ("l") || strIncludes name ("left")) then some ("leftForeArm")
  else if strIncludes name ("fore") && (strIncludes name ("r") || strIncludes name ("right")) then some ("rightForeArm")
  else if strIncludes name ("hand") && (strIncludes name ("l") || strIncludes name ("left")) then some ("leftHand")
  else if strIncludes name ("hand") && (strIncludes name ("r") || strIncludes name ("right")) then some ("rightHand")
  else if (strIncludes name ("thigh") || strIncludes name ("upleg")) && (strIncludes name ("l") || strIncludes name ("left")) then some ("leftUpLeg")
  else if (strIncludes name ("thigh") || strIncludes name ("upleg")) && (strIncludes name ("r") || strIncludes name ("right")) then some ("rightUpLeg")
  else if (strIncludes name ("shin") || strIncludes name ("calf") || strIncludes name ("leg")) && (strIncludes name ("l") || strIncludes name ("left")) && !(strIncludes name ("up")) then some ("leftLeg")
  else if (strIncludes name ("shin") || strIncludes name ("calf") || strIncludes name ("leg")) && (strIncludes name ("r") || strIncludes name ("right")) && !(strIncludes name ("up")) then some ("rightLeg")
  else if strIncludes name ("foot") && (strIncludes name ("l") || strIncludes name ("left")) then some ("leftFoot")
  else if strIncludes name ("foot") && (strIncludes name ("r") || strIncludes name ("right")) then some ("rightFoot")
  else none

/-- A bone object as `mapBone` sees it: its raw name, its identity (a handle
used to address its mutable transform), and its current local position and
orientation at traversal time. -/
structure BoneObj where
  name : String
  handle : ℕ
  position : Vec3
  quaternion : Quat
deriving DecidableEq

/-- A rest-pose snapshot `{ position, quaternion }` (modelCharacter.js:494-497). -/
structure RestTransform where
  position : Vec3
  quaternion : Quat
deriving DecidableEq

/-- The snapshot of a bone's current local position/orientation taken when it
is recorded (`bone.position.clone()`, `bone.quaternion.clone()`). -/
def snapshotOf (b : BoneObj) : RestTransform := ⟨b.position, b.quaternion⟩

/-- The skeleton-mapping state of a `ModelCharacter` during the load-time
traversal: `this.bones` (canonical name → bone handle), `this.restPose`,
`this.hasSkeleton`. -/
structure SkelState where
  bones : String → Option ℕ
  restPose : String → Option RestTransform
  hasSkeleton : Bool

/-- State at the start of `_loadModelAsync`'s traversal
(modelCharacter.js:241-243: `this.bones = {}`, `this.hasSkeleton = false`,
`this.restPose = {}`). -/
def initSkelState : SkelState := ⟨fun _ => none, fun _ => none, false⟩

/-- The shared recording block of `mapBone` (modelCharacter.js:492-498 and
530-536): record the handle and snapshot the rest pose only if the canonical
slot is still empty, and set `hasSkeleton`. -/
def recordIfEmpty (std : String) (b : BoneObj) (st : SkelState) : SkelState :=
  if (st.bones std).isSome then st
  else
    { bones := fun n => if n = std then some b.handle else st.bones n,
      restPose := fun n => if n = std then some (snapshotOf b) else st.restPose n,
      hasSkeleton := true }

/-- The `for (const [alias, standard] of Object.entries(BONE_ALIASES))` loop of
`mapBone` (modelCharacter.js:490-502): on the first containment match it
maybe-records and returns (`some`); falling off the end is `none`. -/
def aliasScan (b : BoneObj) (nm : String) (st : SkelState) :
    List (String × String) → Option SkelState
  | [] => none
  | p :: rest =>
    if strIncludes nm p.1 || strIncludes p.1 nm then some (recordIfEmpty p.2 b st)
    else aliasScan b nm st rest

/-- Embedding of `mapBone` (modelCharacter.js:486-538): normalize the raw
name, scan the alias table (returning as soon as a pair matches), otherwise
run the fuzzy-match chain and record on success if the slot is empty. -/
def mapBone (b : BoneObj) (st : SkelState) : SkelState :=
  let nm := normalizeName b.name
  match aliasScan b nm st BONE_ALIASES with
  | some st' => st'
  | none =>
    match heuristicResolve nm with
    | some std => recordIfEmpty std b st
    | none => st

/-- The pure resolution function implicit in `mapBone`: normalized name,
first matching alias pair in table order, else the heuristic chain, else
`none`. -/
def specResolve (raw : String) : Option String :=
  let nm := normalizeName raw
  match BONE_ALIASES.find? (fun p => strIncludes nm p.1 || strIncludes p.1 nm) with
  | some p => some p.2
  | none => heuristicResolve nm

/-! ## Hierarchy traversal (`findAndMapBones`, modelCharacter.js:464-481) -/

/-- A node of the model hierarchy as the `model.traverse` callback sees it:
the duck-typed flags `isSkinnedMesh` (with its skeleton's bone list) and
`isBone` (with the node itself viewed as a bone). -/
structure SceneObj where
  isSkinnedMesh : Bool
  skeleton : Option (List BoneObj)
  isBone : Bool
  asBone : BoneObj

/-- The body of the `model.traverse` callback (modelCharacter.js:465-480):
for a skinned mesh with a skeleton, set `hasSkeleton` and map each of the
skeleton's bones; additionally map the node itself when it is a bone.
(The `this.skeleton = object.skeleton` handle store is omitted: it is never
read by the verified code.) -/
def visitObj (st : SkelState) (o : SceneObj) : SkelState :=
  let st1 :=
    if o.isSkinnedMesh && o.skeleton.isSome then
      (o.skeleton.getD []).foldl (fun s b => mapBone b s) { st with hasSkeleton := true }
    else st
  if o.isBone then mapBone o.asBone st1 else st1

/-- Embedding of `findAndMapBones(model)` (modelCharacter.js:464-481).
`model.traverse` visits every node of the hierarchy exactly once in a fixed
(pre-)order; the embedding takes that visit sequence as a list. -/
def findAndMapBones (st : SkelState) (objs : List SceneObj) : SkelState :=
  objs.foldl visitObj st

/-- The sequence of bone objects passed to `mapBone` while visiting one node. -/
def collectMapped (o : SceneObj) : List BoneObj :=
  (if o.isSkinnedMesh && o.skeleton.isSome then o.skeleton.getD [] else []) ++
    (if o.isBone then [o.asBone] else [])

/-- The full sequence of bone objects passed to `mapBone` during a traversal. -/
def collectBones : List SceneObj → List BoneObj
  | [] => []
  | o :: t => collectMapped o ++ collectBones t

/-- Does the hierarchy contain a skinned mesh with a skeleton? -/
def hasSkinnedEntry (objs : List SceneObj) : Bool :=
  objs.any (fun o => o.isSkinnedMesh && o.skeleton.isSome)

/-- Does some bone visited by the traversal resolve to a canonical name? -/
def anyBoneResolves (objs : List SceneObj) : Bool :=
  (collectBones objs).any (fun b => (specResolve b.name).isSome)

/-! ## Per-frame retargeting state (modelCharacter.js:588-893)

The transcendental three.js kernels are abstracted as a parameter record. -/

/-- Abstracted transcendental math kernels of the external three.js library
and `Math.asin`: `Quaternion.slerp(target, t)` (as a function of the start
quaternion, the target and the factor), `Quaternion.setFromUnitVectors`,
`Vector3.normalize`, `Math.asin`, and `Quaternion.setFromEuler` on an
`'XYZ'`-order Euler triple. -/
structure MathK where
  slerp : Quat → Quat → ℚ → Quat
  fromUnitVectors : Vec3 → Vec3 → Quat
  vnormalize : Vec3 → Vec3
  asinQ : ℚ → ℚ
  eulerXYZ : ℚ → ℚ → ℚ → Quat

/-- A MediaPipe landmark `{x, y, z, visibility}` (normalized floats). -/
structure RawLandmark where
  x : ℚ
  y : ℚ
  z : ℚ
  visibility : ℚ
deriving DecidableEq

/-- A frame's landmark array, indexed by the MediaPipe landmark numbering;
`none` is an absent entry (`undefined` in the source array). -/
def Landmarks : Type := ℕ → Option RawLandmark

/-- MediaPipe index constants (modelCharacter.js:23-45). -/
def LM_NOSE : ℕ := 0

/-- MediaPipe index `LEFT_SHOULDER`. -/
def LM_LEFT_SHOULDER : ℕ := 11

/-- MediaPipe index `RIGHT_SHOULDER`. -/
def LM_RIGHT_SHOULDER : ℕ := 12

/-- MediaPipe index `LEFT_ELBOW`. -/
def LM_LEFT_ELBOW : ℕ := 13

/-- MediaPipe index `RIGHT_ELBOW`. -/
def LM_RIGHT_ELBOW : ℕ := 14

/-- MediaPipe index `LEFT_WRIST`. -/
def LM_LEFT_WRIST : ℕ := 15

/-- MediaPipe index `RIGHT_WRIST`. -/
def LM_RIGHT_WRIST : ℕ := 16

/-- MediaPipe index `LEFT_INDEX`. -/
def LM_LEFT_INDEX : ℕ := 19

/-- MediaPipe index `RIGHT_INDEX`. -/
def LM_RIGHT_INDEX : ℕ := 20

/-- MediaPipe index `LEFT_HIP`. -/
def LM_LEFT_HIP : ℕ := 23

/-- MediaPipe index `RIGHT_HIP`. -/
def LM_RIGHT_HIP : ℕ := 24

/-- MediaPipe index `LEFT_KNEE`. -/
def LM_LEFT_KNEE : ℕ := 25

/-- MediaPipe index `RIGHT_KNEE`. -/
def LM_RIGHT_KNEE : ℕ := 26

/-- MediaPipe index `LEFT_ANKLE`. -/
def LM_LEFT_ANKLE : ℕ := 27

/-- MediaPipe index `RIGHT_ANKLE`. -/
def LM_RIGHT_ANKLE : ℕ := 28

/-- MediaPipe index `LEFT_FOOT_INDEX`. -/
def LM_LEFT_FOOT_INDEX : ℕ := 31

/-- MediaPipe index `RIGHT_FOOT_INDEX`. -/
def LM_RIGHT_FOOT_INDEX : ℕ := 32

/-- Embedding of `getPos(landmarks, index)` (modelCharacter.js:588-596):
`null` for an absent landmark, else
`((0.5 - x) * 2, (1 - y) * 2, -z)`. -/
def getPos (lms : Landmarks) (i : ℕ) : Option Vec3 :=
  match lms i with
  | none => none
  | some l => some ⟨(1/2 - l.x) * 2, (1 - l.y) * 2, -l.z⟩

/-- The per-frame bone-animation state of a `ModelCharacter`:
`this.bones` (canonical name → handle), the mutable local orientation of each
bone handle, `this.previousBoneRotations`, and `this.restPose`. -/
structure RigState where
  bones : String → Option ℕ
  boneQuat : ℕ → Quat
  previousBoneRotations : String → Option Quat
  restPose : String → Option RestTransform

/-- Embedding of `applyBoneRotation(boneName, targetQuat)`
(modelCharacter.js:870-893): seed the previous smoothed quaternion from the
bone's current local quaternion when absent, slerp toward the target by the
smoothing factor, write `rest.quaternion * smoothed` (or `smoothed` when no
rest pose is recorded) to the bone, and store `smoothed` as the new previous
value. -/
def applyBoneRotation (K : MathK) (smoothing : ℚ) (boneName : String)
    (targetQuat : Quat) (st : RigState) : RigState :=
  match st.bones boneName with
  | none => st
  | some h =>
    let prev :=
      match st.previousBoneRotations boneName with
      | some p => p
      | none => st.boneQuat h
    let smoothed := K.slerp prev targetQuat smoothing
    let final :=
      match st.restPose boneName with
      | some rest => qmul rest.quaternion smoothed
      | none => smoothed
    { st with
      boneQuat := fun j => if j = h then final else st.boneQuat j,
      previousBoneRotations := fun n => if n = boneName then some smoothed else st.previousBoneRotations n }

/-- The spine-bone name list of `updateSpine` (modelCharacter.js:720). -/
def SPINE_BONES : List String := [("spine"), ("spine1"), ("spine2"), ("chest")]

/-- Embedding of `updateSpine(landmarks)` (modelCharacter.js:701-728). -/
def updateSpine (K : MathK) (smoothing : ℚ) (lms : Landmarks) (st : RigState) : RigState :=
  match getPos lms LM_LEFT_HIP, getPos lms LM_RIGHT_HIP,
      getPos lms LM_LEFT_SHOULDER, getPos lms LM_RIGHT_SHOULDER with
  | some leftHip, some rightHip, some leftShoulder, some rightShoulder =>
    let hipCenter := vscale (1/2) (vadd leftHip rightHip)
    let shoulderCenter := vscale (1/2) (vadd leftShoulder rightShoulder)
    let spineDir := K.vnormalize (vsub shoulderCenter hipCenter)
    let tiltX := K.asinQ spineDir.z * (1/2)
    let tiltZ := -(K.asinQ spineDir.x) * (1/2)
    SPINE_BONES.foldl
      (fun st2 boneName =>
        if (st2.bones boneName).isSome then
          applyBoneRotation K smoothing boneName
            (K.eulerXYZ (tiltX * (3/10)) 0 (tiltZ * (3/10))) st2
        else st2)
      st
  | _, _, _, _ => st

/-- Embedding of `updateHead(landmarks)` (modelCharacter.js:733-761). -/
def updateHead (K : MathK) (smoothing : ℚ) (lms : Landmarks) (st : RigState) : RigState :=
  match getPos lms LM_NOSE, getPos lms LM_LEFT_SHOULDER, getPos lms LM_RIGHT_SHOULDER with
  | some nose, some leftShoulder, some rightShoulder =>
    let shoulderCenter := vscale (1/2) (vadd leftShoulder rightShoulder)
    let headDir := K.vnormalize (vsub nose shoulderCenter)
    let tiltX := K.asinQ headDir.z * (3/10)
    let tiltZ := -(K.asinQ headDir.x) * (3/10)
    let st1 :=
      if (st.bones ("head")).isSome then
        applyBoneRotation K smoothing ("head") (K.eulerXYZ tiltX 0 tiltZ) st
      else st
    if (st1.bones ("neck")).isSome then
      applyBoneRotation K smoothing ("neck")
        (K.eulerXYZ (tiltX * (1/2)) 0 (tiltZ * (1/2))) st1
    else st1
  | _, _, _ => st

/-- Embedding of `updateArm(landmarks, side)` (modelCharacter.js:766-812);
`isLeft` is `side === 'left'`.  The whole update returns unchanged unless
shoulder, elbow AND wrist are all present; the hand segment additionally
requires the index-finger landmark. -/
def updateArm (K : MathK) (smoothing : ℚ) (lms : Landmarks) (isLeft : Bool)
    (st : RigState) : RigState :=
  let shoulderIdx := if isLeft then LM_LEFT_SHOULDER else LM_RIGHT_SHOULDER
  let elbowIdx := if isLeft then LM_LEFT_ELBOW else LM_RIGHT_ELBOW
  let wristIdx := if isLeft then LM_LEFT_WRIST else LM_RIGHT_WRIST
  let indexIdx := if isLeft then LM_LEFT_INDEX else LM_RIGHT_INDEX
  match getPos lms shoulderIdx, getPos lms elbowIdx, getPos lms wristIdx with
  | some shoulder, some elbow, some wrist =>
    let defaultDir : Vec3 := if isLeft then ⟨-1, 0, 0⟩ else ⟨1, 0, 0⟩
    let upperArmDir := K.vnormalize (vsub elbow shoulder)
    let armName := if isLeft then ("leftUpperArm") else ("rightUpperArm")
    let st1 :=
      if (st.bones armName).isSome then
        applyBoneRotation K smoothing armName (K.fromUnitVectors defaultDir upperArmDir) st
      else st
    let foreArmDir := K.vnormalize (vsub wrist elbow)
    let foreName := if isLeft then ("leftForeArm") else ("rightForeArm")
    let st2 :=
      if (st1.bones foreName).isSome then
        applyBoneRotation K smoothing foreName (K.fromUnitVectors defaultDir foreArmDir) st1
      else st1
    match getPos lms indexIdx with
    | some indexFinger =>
      let handDir := K.vnormalize (vsub indexFinger wrist)
      let handName := if isLeft then ("leftHand") else ("rightHand")
      if (st2.bones handName).isSome then
        applyBoneRotation K smoothing handName (K.fromUnitVectors defaultDir handDir) st2
      else st2
    | none => st2
  | _, _, _ => st

/-- Embedding of `updateLeg(landmarks, side)` (modelCharacter.js:817-865). -/
def updateLeg (K : MathK) (smoothing : ℚ) (lms : Landmarks) (isLeft : Bool)
    (st : RigState) : RigState :=
  let hipIdx := if isLeft then LM_LEFT_HIP else LM_RIGHT_HIP
  let kneeIdx := if isLeft then LM_LEFT_KNEE else LM_RIGHT_KNEE
  let ankleIdx := if isLeft then LM_LEFT_ANKLE else LM_RIGHT_ANKLE
  let footIdx := if isLeft then LM_LEFT_FOOT_INDEX else LM_RIGHT_FOOT_INDEX
  match getPos lms hipIdx, getPos lms kneeIdx, getPos lms ankleIdx with
  | some hip, some knee, some ankle =>
    let upLegDir := K.vnormalize (vsub knee hip)
    let upLegName := if isLeft then ("leftUpLeg") else ("rightUpLeg")
    let st1 :=
      if (st.bones upLegName).isSome then
        applyBoneRotation K smoothing upLegName
          (K.fromUnitVectors ⟨0, -1, 0⟩ upLegDir) st
      else st
    let legDir := K.vnormalize (vsub ankle knee)
    let legName := if isLeft then ("leftLeg") else ("rightLeg")
    let st2 :=
      if (st1.bones legName).isSome then
        applyBoneRotation K smoothing legName
          (K.fromUnitVectors ⟨0, -1, 0⟩ legDir) st1
      else st1
    match getPos lms footIdx with
    | some foot =>
      let footDir := K.vnormalize (vsub foot ankle)
      let footName := if isLeft then ("leftFoot") else ("rightFoot")
      if (st2.bones footName).isSome then
        applyBoneRotation K smoothing footName
          (K.fromUnitVectors ⟨0, 0, 1⟩ footDir) st2
      else st2
    | none => st2
  | _, _, _ => st

/-- Embedding of `updateSkeleton(landmarks)` (modelCharacter.js:682-696):
spine, head, left arm, right arm, left leg, right leg, in that order. -/
def updateSkeleton (K : MathK) (smoothing : ℚ) (lms : Landmarks) (st : RigState) : RigState :=
  updateLeg K smoothing lms false
    (updateLeg K smoothing lms true
      (updateArm K smoothing lms false
        (updateArm K smoothing lms true
          (updateHead K smoothing lms
            (updateSpine K smoothing lms st)))))

/-! ## Yaw smoothing (modelCharacter.js:671-676)

`Math.PI` is irrational, so it is passed as the parameter `pi`. -/

/-- Embedding of the rotation-difference wrap of `updatePosition`
(modelCharacter.js:672-674): subtract `2*pi` if the difference exceeds `pi`,
then add `2*pi` if it is below `-pi`. -/
def wrapRotDiff (pi d : ℚ) : ℚ :=
  let d1 := if d > pi then d - pi * 2 else d
  if d1 < -pi then d1 + pi * 2 else d1

/-- Embedding of the yaw-smoothing step of `updatePosition`
(modelCharacter.js:672-676): `previousRotation += wrappedDiff * smoothing`. -/
def smoothYaw (pi smoothing previousRotation targetRotY : ℚ) : ℚ :=
  previousRotation + wrapRotDiff pi (targetRotY - previousRotation) * smoothing

/-! ## Model cache visibility (modelCharacter.js:144-155, 895-902) -/

/-- The cache-and-visibility state of a `ModelCharacter`: the visible flag of
each cached model's visual root (`none` = model id not cached), `this.visible`,
`this.model` (as the id of the active cached model), `this.currentModelId`,
and `this.isLoaded`. -/
structure CacheState where
  cacheVis : ℕ → Option Bool
  charVisible : Bool
  activeModel : Option ℕ
  currentModelId : Option ℕ
  isLoaded : Bool

/-- Embedding of `_activateModel(modelId)` (modelCharacter.js:144-155): hide
every cached model's visual root, then show the newly active one with the
character's own visibility flag.  (The copies of the skeleton-cache entry
into `this.bones`/`this.hasSkeleton`/`this.restPose` act on the rig state and
are modelled separately.) -/
def activateModel (modelId : ℕ) (st : CacheState) : CacheState :=
  { st with
    cacheVis := fun j =>
      if j = modelId then (st.cacheVis modelId).map (fun _ => st.charVisible)
      else (st.cacheVis j).map (fun _ => false),
    activeModel := some modelId,
    currentModelId := some modelId,
    isLoaded := true }

/-- Embedding of `setVisible(visible)` (modelCharacter.js:895-902): set the
character's flag, hide every cached model, then show the active model if the
character is visible. -/
def setVisible (v : Bool) (st : CacheState) : CacheState :=
  let hidden : ℕ → Option Bool := fun j => (st.cacheVis j).map (fun _ => false)
  { st with
    charVisible := v,
    cacheVis :=
      match st.activeModel with
      | some m =>
        if v then (fun j => if j = m then (hidden j).map (fun _ => true) else hidden j)
        else hidden
      | none => hidden }

/-- At most one cached asset's visual root is visible. -/
def AtMostOneVisible (st : CacheState) : Prop :=
  ∀ j k, st.cacheVis j = some true → st.cacheVis k = some true → j = k

/-! ## Asynchronous model loading (modelCharacter.js:160-267)

`loadModel` runs on a single-threaded event loop: the code between two
`await` points executes atomically.  The transition system below models two
concurrent `loadModel(id)` calls (tasks indexed by `Bool`) for one fixed,
initially unseen model id, on the success path.  Each constructor is one
atomic segment of the source. -/

/-- Program counter of one `loadModel(id)` call:
not yet started; suspended on another call's in-flight promise
(modelCharacter.js:173-178); owner of the in-flight load, waiting for the
parse (modelCharacter.js:197-200 after `_loadModelAsync` initiated the parse);
owner after `_loadModelAsync`'s body finished (its promise resolved) but
before `loadModel`'s `finally` ran; returned, having observed the given
asset. -/
inductive TaskPC where
  | tStart
  | tWaitExisting
  | tRunOwn
  | tResolvedOwn
  | tDone (asset : ℕ)
deriving DecidableEq

/-- Shared state for one model id: `modelCache[id]` (the asset, by identity),
`loadingPromises[id]` presence, whether that promise has settled,
how many parse/build operations were started, and whether
`currentModelId === id && isLoaded`. -/
structure LoadSys where
  cacheAsset : Option ℕ
  pending : Bool
  resolved : Bool
  parseCount : ℕ
  current : Bool
  tasks : Bool → TaskPC

/-- Update one task's program counter. -/
def updTask (f : Bool → TaskPC) (w : Bool) (pc : TaskPC) : Bool → TaskPC :=
  fun b => if b = w then pc else f b

/-- Atomic segments of two concurrent `loadModel(id)` calls for the same
unseen id (success path).  The guards follow the branch order of
`loadModel` (modelCharacter.js:160-205):
* `currentHit`: the id is already current and loaded — return at once
  (line 168), observing the active cached asset.
* `waitExisting`: `loadingPromises[id]` exists — suspend on it (line 173).
* `cacheHit`: `modelCache[id]` exists — `_activateModel` and return
  (lines 184-188).
* `startLoad`: store `_loadModelAsync`'s promise in `loadingPromises[id]`;
  invoking `_loadModelAsync` synchronously initiates the parse (line 197,
  one parse operation counted), then suspend on the `await` (line 200).
* `parseDone`: the parse finished; `_loadModelAsync`'s continuation caches
  the built model and activates it (lines 225-261), which resolves the
  promise.
* `ownerReturn`: the owner's `await` resumes and the `finally` deletes
  `loadingPromises[id]` (line 203); the owner returns, observing the asset
  it activated.
* `waiterWake`: a suspended waiter's `await` resumes (possible only once the
  promise is resolved), and it runs `_activateModel(id)` (line 176),
  observing `modelCache[id]`. -/
inductive LoadStep : LoadSys → LoadSys → Prop where
  | currentHit (s : LoadSys) (w : Bool) (a : ℕ) :
      s.tasks w = .tStart → s.current = true → s.cacheAsset = some a →
      LoadStep s { s with tasks := updTask s.tasks w (.tDone a) }
  | waitExisting (s : LoadSys) (w : Bool) :
      s.tasks w = .tStart → s.current = false → s.pending = true →
      LoadStep s { s with tasks := updTask s.tasks w .tWaitExisting }
  | cacheHit (s : LoadSys) (w : Bool) (a : ℕ) :
      s.tasks w = .tStart → s.current = false → s.pending = false →
      s.cacheAsset = some a →
      LoadStep s { s with current := true, tasks := updTask s.tasks w (.tDone a) }
  | startLoad (s : LoadSys) (w : Bool) :
      s.tasks w = .tStart → s.current = false → s.pending = false →
      s.cacheAsset = none →
      LoadStep s { s with pending := true, parseCount := s.parseCount + 1,
                          tasks := updTask s.tasks w .tRunOwn }
  | parseDone (s : LoadSys) (w : Bool) :
      s.tasks w = .tRunOwn →
      LoadStep s { s with cacheAsset := some 1, current := true, resolved := true,
                          tasks := updTask s.tasks w .tResolvedOwn }
  | ownerReturn (s : LoadSys) (w : Bool) :
      s.tasks w = .tResolvedOwn →
      LoadStep s { s with pending := false, tasks := updTask s.tasks w (.tDone 1) }
  | waiterWake (s : LoadSys) (w : Bool) (a : ℕ) :
      s.tasks w = .tWaitExisting → s.resolved = true → s.cacheAsset = some a →
      LoadStep s { s with current := true, tasks := updTask s.tasks w (.tDone a) }

/-- Initial state: id unseen (not cached, no load in flight), both calls
about to start. -/
def initLoadSys : LoadSys := ⟨none, false, false, 0, false, fun _ => .tStart⟩

/-- Reachability through atomic segments of the event loop. -/
def LoadReach : LoadSys → LoadSys → Prop := Relation.ReflTransGen LoadStep

/-! ## Concrete instances used by witnesses and counterexamples -/

/-- A concrete instantiation of the abstract math kernels (the structural
claims hold for every instantiation; witnesses evaluate at this one). -/
def K0 : MathK :=
  ⟨fun _ t _ => t, fun _ _ => ⟨1, 0, 0, 0⟩, fun v => v, fun q => q,
   fun a b c => ⟨a, b, c, 1⟩⟩

/-- The identity quaternion. -/
def idQuat : Quat := ⟨0, 0, 0, 1⟩

/-- A complete frame: every landmark present. -/
def fullLms : Landmarks := fun _ => some ⟨1/4, 1/2, 1/8, 1⟩

/-- `fullLms` with the right wrist (index 16) removed. -/
def lmsNoRWrist : Landmarks := fun i => if i = LM_RIGHT_WRIST then none else fullLms i

/-- A rig with exactly the right upper arm mapped (handle 0), no previous
smoothed rotations and no rest pose. -/
def rigRArm : RigState :=
  ⟨fun n => if n = ("rightUpperArm") then some 0 else none,
   fun _ => idQuat, fun _ => none, fun _ => none⟩

/-- A rig with the `hips` bone mapped to handle 2, a previous smoothed
quaternion and a rest pose recorded. -/
def rigHip : RigState :=
  ⟨fun n => if n = ("hips") then some 2 else none,
   fun _ => ⟨1/2, 0, 0, 1⟩,
   fun n => if n = ("hips") then some ⟨1, 0, 0, 0⟩ else none,
   fun n => if n = ("hips") then some ⟨⟨0, 0, 0⟩, ⟨0, 1, 0, 0⟩⟩ else none⟩

/-- `rigHip` before the very first update of the bone: no previous smoothed
quaternion stored yet. -/
def rigHipFresh : RigState :=
  ⟨fun n => if n = ("hips") then some 2 else none,
   fun _ => ⟨1/2, 0, 0, 1⟩,
   fun _ => none,
   fun n => if n = ("hips") then some ⟨⟨0, 0, 0⟩, ⟨0, 1, 0, 0⟩⟩ else none⟩

/-- A bone named `"Spine"` (resolves to canonical `spine`). -/
def boneSpineA : BoneObj := ⟨("Spine"), 5, ⟨1, 2, 3⟩, ⟨0, 0, 0, 1⟩⟩

/-- A later bone named `"spine_IK"` (also resolves to canonical `spine`). -/
def boneSpineB : BoneObj := ⟨("spine_IK"), 7, ⟨4, 5, 6⟩, ⟨0, 1, 0, 0⟩⟩

/-- A traversal visiting two plain bones that resolve to the same canonical
name. -/
def objsDup : List SceneObj :=
  [⟨false, none, true, boneSpineA⟩, ⟨false, none, true, boneSpineB⟩]

/-- A bone whose name resolves to no canonical bone. -/
def boneZ : BoneObj := ⟨("zzz"), 0, ⟨0, 0, 0⟩, ⟨0, 0, 0, 1⟩⟩

/-- A hierarchy consisting of one skinned mesh whose single skeleton bone
resolves to nothing. -/
def objsSkinnedOnly : List SceneObj := [⟨true, some [boneZ], false, boneZ⟩]

/-- A cache state with two models cached (ids 1 and 2), both visible. -/
def cacheTwo : CacheState :=
  ⟨fun j => if j = 1 then some true else if j = 2 then some true else none,
   true, some 2, some 2, true⟩

/-- Landmarks for the coordinate-mapper witness. -/
def c8lms : Landmarks := fun i => if i = 0 then some ⟨1/3, 1/5, 7, 1⟩ else none

/-- Intermediate states of a concrete two-caller interleaving. -/
def c4Sys1 : LoadSys :=
  { initLoadSys with pending := true, parseCount := initLoadSys.parseCount + 1,
                     tasks := updTask initLoadSys.tasks true .tRunOwn }

/-- Second state: the owner's parse finished, model cached and activated. -/
def c4Sys2 : LoadSys :=
  { c4Sys1 with cacheAsset := some 1, current := true, resolved := true,
                tasks := updTask c4Sys1.tasks true .tResolvedOwn }

/-- Third state: the owner returned. -/
def c4Sys3 : LoadSys :=
  { c4Sys2 with pending := false, tasks := updTask c4Sys2.tasks true (.tDone 1) }

/-- Final state: the second caller started after completion and hit the
current-model early return. -/
def c4Sys4 : LoadSys :=
  { c4Sys3 with tasks := updTask c4Sys3.tasks false (.tDone 1) }

/-! ## Lemmas: bone-name resolution -/

/-- The alias loop of `mapBone` returns the maybe-record action of the first
matching pair, in table order. -/
theorem aliasScan_eq_find (b : BoneObj) (nm : String) (st : SkelState) :
    ∀ l : List (String × String),
      aliasScan b nm st l =
        (l.find? (fun p => strIncludes nm p.1 || strIncludes p.1 nm)).map
          (fun p => recordIfEmpty p.2 b st) := by
  intro l
  induction l with
  | nil => simp [aliasScan]
  | cons p rest ih =>
    by_cases hc : (strIncludes nm p.1 || strIncludes p.1 nm) = true
    · simp [aliasScan, List.find?_cons, hc]
    · simp [aliasScan, List.find?_cons, hc, ih]

/-- `mapBone` acts as the pure resolver `specResolve` followed by the guarded
recording action. -/
theorem mapBone_eq_spec (b : BoneObj) (st : SkelState) :
    mapBone b st =
      match specResolve b.name with
      | some std => recordIfEmpty std b st
      | none => st := by
  simp only [mapBone, specResolve]
  rw [aliasScan_eq_find]
  cases hf : BONE_ALIASES.find?
      (fun p => strIncludes (normalizeName b.name) p.1 ||
        strIncludes p.1 (normalizeName b.name)) with
  | none => simp [hf]
  | some p => simp [hf]

/-- C2: for every raw bone name, `mapBone` first normalizes the name, then
scans the alias table in definition order and acts on the first pair matched
by bidirectional substring containment; only if no alias matched does it run
the ordered substring heuristics; and when nothing matches it leaves the
state unchanged (the bone stays unmapped, non-fatally). -/
theorem c2_resolution_order (b : BoneObj) (st : SkelState) :
    mapBone b st =
      match (BONE_ALIASES.find? (fun p =>
          strIncludes (normalizeName b.name) p.1 ||
            strIncludes p.1 (normalizeName b.name))).map (fun p => p.2) with
      | some std => recordIfEmpty std b st
      | none =>
        match heuristicResolve (normalizeName b.name) with
        | some std => recordIfEmpty std b st
        | none => st := by
  rw [mapBone_eq_spec]
  unfold specResolve
  cases hf : BONE_ALIASES.find?
      (fun p => strIncludes (normalizeName b.name) p.1 ||
        strIncludes p.1 (normalizeName b.name)) with
  | none => simp [hf]
  | some p => simp [hf]

/-! ## Lemmas: first-wins recording and traversal -/

/-- Recording to slot `std` leaves any other slot's bone entry unchanged. -/
theorem recordIfEmpty_bones_ne (std : String) (b : BoneObj) (st : SkelState)
    (n : String) (h : n ≠ std) :
    (recordIfEmpty std b st).bones n = st.bones n := by
  unfold recordIfEmpty
  split
  · rfl
  · simp [h]

/-- Recording to slot `std` leaves any other slot's rest pose unchanged. -/
theorem recordIfEmpty_rest_ne (std : String) (b : BoneObj) (st : SkelState)
    (n : String) (h : n ≠ std) :
    (recordIfEmpty std b st).restPose n = st.restPose n := by
  unfold recordIfEmpty
  split
  · rfl
  · simp [h]

/-- Recording into an occupied slot is a no-op. -/
theorem recordIfEmpty_occupied (std : String) (b : BoneObj) (st : SkelState)
    (h : (st.bones std).isSome) :
    recordIfEmpty std b st = st := by
  simp [recordIfEmpty, h]

/-- Recording into an empty slot stores the handle and the snapshot. -/
theorem recordIfEmpty_empty (std : String) (b : BoneObj) (st : SkelState)
    (h : st.bones std = none) :
    (recordIfEmpty std b st).bones std = some b.handle ∧
    (recordIfEmpty std b st).restPose std = some (snapshotOf b) := by
  simp [recordIfEmpty, h]

/-- A bone that does not resolve to `n` never touches slot `n`. -/
theorem mapBone_slot_stable (b : BoneObj) (st : SkelState) (n : String)
    (hres : specResolve b.name ≠ some n) :
    (mapBone b st).bones n = st.bones n ∧
    (mapBone b st).restPose n = st.restPose n := by
  rw [mapBone_eq_spec]
  cases hr : specResolve b.name with
  | none => exact ⟨rfl, rfl⟩
  | some std =>
    have hne : n ≠ std := by
      intro e
      exact hres (by rw [e]; exact hr)
    exact ⟨recordIfEmpty_bones_ne std b st n hne, recordIfEmpty_rest_ne std b st n hne⟩

/-- An occupied slot (and its rest pose) is never overwritten by `mapBone`. -/
theorem mapBone_mapped_stable (b : BoneObj) (st : SkelState) (n : String)
    (hocc : (st.bones n).isSome) :
    (mapBone b st).bones n = st.bones n ∧
    (mapBone b st).restPose n = st.restPose n := by
  rw [mapBone_eq_spec]
  cases hr : specResolve b.name with
  | none => exact ⟨rfl, rfl⟩
  | some std =>
    by_cases hne : n = std
    · subst hne
      have h := recordIfEmpty_occupied n b st hocc
      exact ⟨congrArg (fun s => SkelState.bones s n) h,
        congrArg (fun s => SkelState.restPose s n) h⟩
    · exact ⟨recordIfEmpty_bones_ne std b st n hne, recordIfEmpty_rest_ne std b st n hne⟩

/-- A bone resolving to the still-empty slot `n` is recorded with its
snapshot. -/
theorem mapBone_records (b : BoneObj) (st : SkelState) (n : String)
    (hempty : st.bones n = none) (hres : specResolve b.name = some n) :
    (mapBone b st).bones n = some b.handle ∧
    (mapBone b st).restPose n = some (snapshotOf b) := by
  rw [mapBone_eq_spec, hres]
  exact recordIfEmpty_empty n b st hempty

/-- Folding `mapBone` over bones never disturbs an occupied slot. -/
theorem foldl_mapBone_mapped_stable (bs : List BoneObj) :
    ∀ (st : SkelState) (n : String), (st.bones n).isSome →
      (bs.foldl (fun s b => mapBone b s) st).bones n = st.bones n ∧
      (bs.foldl (fun s b => mapBone b s) st).restPose n = st.restPose n := by
  induction bs with
  | nil => intro st n _; exact ⟨rfl, rfl⟩
  | cons b t ih =>
    intro st n hocc
    have h1 := mapBone_mapped_stable b st n hocc
    have hocc' : ((mapBone b st).bones n).isSome := by rw [h1.1]; exact hocc
    have h2 := ih (mapBone b st) n hocc'
    simp only [List.foldl_cons]
    exact ⟨h2.1.trans h1.1, h2.2.trans h1.2⟩

/-- Folding `mapBone` over a bone sequence records the first bone whose name
resolves to the empty slot `n`, with that bone's snapshot; later bones never
overwrite it. -/
theorem foldl_mapBone_first_wins (bs : List BoneObj) :
    ∀ (st : SkelState) (n : String) (b1 : BoneObj), st.bones n = none →
      bs.find? (fun b => decide (specResolve b.name = some n)) = some b1 →
      (bs.foldl (fun s b => mapBone b s) st).bones n = some b1.handle ∧
      (bs.foldl (fun s b => mapBone b s) st).restPose n = some (snapshotOf b1) := by
  induction bs with
  | nil => intro st n b1 _ hfind; simp at hfind
  | cons b t ih =>
    intro st n b1 hempty hfind
    by_cases hb : specResolve b.name = some n
    · have hb1 : b = b1 := by
        simp [List.find?_cons, hb] at hfind
        exact hfind
      subst hb1
      have hrec := mapBone_records b st n hempty hb
      have hocc : ((mapBone b st).bones n).isSome := by rw [hrec.1]; rfl
      have hst := foldl_mapBone_mapped_stable t (mapBone b st) n hocc
      simp only [List.foldl_cons]
      exact ⟨hst.1.trans hrec.1, hst.2.trans hrec.2⟩
    · have hfind' : t.find? (fun b => decide (specResolve b.name = some n)) = some b1 := by
        simp [List.find?_cons, hb] at hfind
        exact hfind
      have hstable := mapBone_slot_stable b st n hb
      have hempty' : (mapBone b st).bones n = none := hstable.1.trans hempty
      simp only [List.foldl_cons]
      exact ih (mapBone b st) n b1 hempty' hfind'

/-- Two mapping states agreeing on the bone table and the rest poses
(the `hasSkeleton` flag may differ). -/
def BR (st st' : SkelState) : Prop :=
  st.bones = st'.bones ∧ st.restPose = st'.restPose

/-- `BR` is preserved by `mapBone` (its behaviour on the bone table and rest
poses does not depend on `hasSkeleton`). -/
theorem mapBone_BR {st st' : SkelState} (b : BoneObj) (h : BR st st') :
    BR (mapBone b st) (mapBone b st') := by
  obtain ⟨hb, hr⟩ := h
  rw [mapBone_eq_spec, mapBone_eq_spec]
  cases hres : specResolve b.name with
  | none => exact ⟨hb, hr⟩
  | some std =>
    show BR (recordIfEmpty std b st) (recordIfEmpty std b st')
    unfold recordIfEmpty
    rw [hb, hr]
    split
    · exact ⟨hb, hr⟩
    · exact ⟨rfl, rfl⟩

/-- `BR` is preserved by folding `mapBone`. -/
theorem foldl_mapBone_BR (bs : List BoneObj) :
    ∀ {st st' : SkelState}, BR st st' →
      BR (bs.foldl (fun s b => mapBone b s) st) (bs.foldl (fun s b => mapBone b s) st') := by
  induction bs with
  | nil => intro st st' h; exact h
  | cons b t ih =>
    intro st st' h
    simp only [List.foldl_cons]
    exact ih (mapBone_BR b h)

/-- Visiting one node affects the bone table and rest poses exactly as
folding `mapBone` over the bones the node contributes. -/
theorem visitObj_BR (o : SceneObj) {st st' : SkelState} (h : BR st st') :
    BR (visitObj st o) ((collectMapped o).foldl (fun s b => mapBone b s) st') := by
  unfold visitObj collectMapped
  by_cases hsk : (o.isSkinnedMesh && o.skeleton.isSome) = true
  · have h1 : BR { st with hasSkeleton := true } st' := ⟨h.1, h.2⟩
    have h2 := foldl_mapBone_BR (o.skeleton.getD []) h1
    by_cases hib : o.isBone = true
    · simp only [hsk, hib, if_true, List.foldl_append, List.foldl_cons, List.foldl_nil]
      exact mapBone_BR o.asBone h2
    · simp only [hsk, hib, if_true, if_false, List.foldl_append, List.foldl_nil]
      exact h2
  · by_cases hib : o.isBone = true
    · simp only [hsk, hib, if_true, if_false, List.nil_append, List.foldl_cons, List.foldl_nil]
      exact mapBone_BR o.asBone h
    · simp only [hsk, hib, if_false, List.nil_append, List.foldl_nil]
      exact h

/-- The full traversal affects the bone table and rest poses exactly as
folding `mapBone` over the traversal's bone sequence. -/
theorem findAndMapBones_BR (objs : List SceneObj) :
    ∀ {st st' : SkelState}, BR st st' →
      BR (findAndMapBones st objs)
        ((collectBones objs).foldl (fun s b => mapBone b s) st') := by
  induction objs with
  | nil => intro st st' h; exact h
  | cons o t ih =>
    intro st st' h
    show BR (List.foldl visitObj (visitObj st o) t) _
    have h1 := visitObj_BR o h
    have h2 := ih h1
    simpa only [collectBones, List.foldl_append] using h2

/-- C3: during a single hierarchy traversal, if the canonical slot `n` starts
empty, the first visited bone whose raw name resolves to `n` is the one
recorded in the bones map, with its local position/orientation at traversal
time snapshotted as rest pose; bones visited later (in particular duplicates
resolving to the same canonical name) never overwrite the entry or its
snapshot. -/
theorem c3_first_encountered_wins (objs : List SceneObj) (st0 : SkelState)
    (n : String) (b1 : BoneObj)
    (hempty : st0.bones n = none)
    (hfirst : (collectBones objs).find? (fun b => decide (specResolve b.name = some n)) = some b1) :
    (findAndMapBones st0 objs).bones n = some b1.handle ∧
    (findAndMapBones st0 objs).restPose n = some (snapshotOf b1) := by
  have hBR := findAndMapBones_BR objs (⟨rfl, rfl⟩ : BR st0 st0)
  have hf := foldl_mapBone_first_wins (collectBones objs) st0 n b1 hempty hfirst
  exact ⟨(congrFun hBR.1 n).trans hf.1, (congrFun hBR.2 n).trans hf.2⟩

/-- Witness for C3: two bones, `"Spine"` then `"spine_IK"`, both resolving to
canonical `spine`; the first one's handle and snapshot are what the finished
traversal holds. -/
theorem c3_witness :
    (findAndMapBones initSkelState objsDup).bones ("spine") = some boneSpineA.handle ∧
    (findAndMapBones initSkelState objsDup).restPose ("spine") = some (snapshotOf boneSpineA) := by
  exact c3_first_encountered_wins objsDup initSkelState ("spine") boneSpineA
    (by decide) (by decide)

/-! ## Lemmas: the `hasSkeleton` flag -/

/-- Consistency of a mapping state: a non-empty bone table implies the
`hasSkeleton` flag (holds for the initial state and is preserved). -/
def SkelInv (st : SkelState) : Prop :=
  ∀ n, (st.bones n).isSome → st.hasSkeleton = true

/-- `mapBone` sets `hasSkeleton` exactly when the name resolves (on
consistent states; a resolving-but-occupied slot implies the flag was
already set). -/
theorem mapBone_hsk (b : BoneObj) (st : SkelState) (h : SkelInv st) :
    (mapBone b st).hasSkeleton = (st.hasSkeleton || (specResolve b.name).isSome) := by
  rw [mapBone_eq_spec]
  cases hres : specResolve b.name with
  | none => simp
  | some std =>
    show (recordIfEmpty std b st).hasSkeleton = _
    unfold recordIfEmpty
    split
    · rename_i hocc
      simp [h std hocc]
    · simp

/-- `mapBone` preserves consistency. -/
theorem mapBone_SkelInv (b : BoneObj) (st : SkelState) (h : SkelInv st) :
    SkelInv (mapBone b st) := by
  rw [mapBone_eq_spec]
  cases hres : specResolve b.name with
  | none => exact h
  | some std =>
    show SkelInv (recordIfEmpty std b st)
    unfold recordIfEmpty
    split
    · exact h
    · intro n _; rfl

/-- Folding `mapBone`: the flag ends up set exactly when it was set before or
some folded bone's name resolves. -/
theorem foldl_mapBone_hsk (bs : List BoneObj) :
    ∀ (st : SkelState), SkelInv st →
      ((bs.foldl (fun s b => mapBone b s) st).hasSkeleton =
        (st.hasSkeleton || bs.any (fun b => (specResolve b.name).isSome))) ∧
      SkelInv (bs.foldl (fun s b => mapBone b s) st) := by
  induction bs with
  | nil => intro st h; exact ⟨by simp, h⟩
  | cons b t ih =>
    intro st h
    have h1 := mapBone_hsk b st h
    have h2 := mapBone_SkelInv b st h
    obtain ⟨ih1, ih2⟩ := ih (mapBone b st) h2
    refine ⟨?_, ih2⟩
    simp only [List.foldl_cons, List.any_cons]
    rw [ih1, h1, Bool.or_assoc]

/-- A subsingleton version of the state with the flag forced keeps
consistency. -/
theorem SkelInv_force (st : SkelState) : SkelInv { st with hasSkeleton := true } :=
  fun _ _ => rfl

/-- One visited node sets the flag exactly when it was set, the node is a
skinned mesh with a skeleton, or one of its contributed bones resolves. -/
theorem visitObj_hsk (o : SceneObj) (st : SkelState) (h : SkelInv st) :
    ((visitObj st o).hasSkeleton =
      (st.hasSkeleton || (o.isSkinnedMesh && o.skeleton.isSome) ||
        (collectMapped o).any (fun b => (specResolve b.name).isSome))) ∧
    SkelInv (visitObj st o) := by
  obtain ⟨osm, oskel, oib, oab⟩ := o
  cases osm with
  | false =>
    cases oib with
    | false => exact ⟨by simp [visitObj, collectMapped], by simpa [visitObj] using h⟩
    | true =>
      have hm1 := mapBone_hsk oab st h
      have hm2 := mapBone_SkelInv oab st h
      refine ⟨?_, by simpa [visitObj] using hm2⟩
      simp [visitObj, collectMapped, hm1]
  | true =>
    cases oskel with
    | none =>
      cases oib with
      | false => exact ⟨by simp [visitObj, collectMapped], by simpa [visitObj] using h⟩
      | true =>
        have hm1 := mapBone_hsk oab st h
        have hm2 := mapBone_SkelInv oab st h
        refine ⟨?_, by simpa [visitObj] using hm2⟩
        simp [visitObj, collectMapped, hm1]
    | some l =>
      obtain ⟨hf1, hf2⟩ := foldl_mapBone_hsk l
        { st with hasSkeleton := true } (SkelInv_force st)
      cases oib with
      | false =>
        refine ⟨?_, by simpa [visitObj] using hf2⟩
        simp [visitObj, collectMapped, hf1]
      | true =>
        have hm1 := mapBone_hsk oab _ hf2
        have hm2 := mapBone_SkelInv oab _ hf2
        refine ⟨?_, by simpa [visitObj] using hm2⟩
        simp [visitObj, collectMapped, hm1, hf1]

/-- Traversal-level characterization of the flag over consistent states. -/
theorem findAndMapBones_hsk (objs : List SceneObj) :
    ∀ (st : SkelState), SkelInv st →
      ((findAndMapBones st objs).hasSkeleton =
        (st.hasSkeleton || hasSkinnedEntry objs || anyBoneResolves objs)) ∧
      SkelInv (findAndMapBones st objs) := by
  induction objs with
  | nil =>
    intro st h
    exact ⟨by simp [findAndMapBones, hasSkinnedEntry, anyBoneResolves, collectBones], h⟩
  | cons o t ih =>
    intro st h
    obtain ⟨hv1, hv2⟩ := visitObj_hsk o st h
    obtain ⟨ih1, ih2⟩ := ih (visitObj st o) hv2
    refine ⟨?_, ih2⟩
    show (findAndMapBones (visitObj st o) t).hasSkeleton = _
    rw [ih1, hv1]
    simp only [hasSkinnedEntry, anyBoneResolves, collectBones, List.any_cons, List.any_append]
    cases st.hasSkeleton <;> cases (o.isSkinnedMesh && o.skeleton.isSome) <;>
      cases (collectMapped o).any (fun b => (specResolve b.name).isSome) <;> simp

/-- C9 (amended): after the load-time traversal from the freshly reset state,
`hasSkeleton` is `true` exactly when the model contains a skinned mesh with a
skeleton or at least one visited bone's name resolves to a canonical bone; in
particular it is set as soon as one bone is mapped, but it is also set by a
skinned mesh none of whose bone names resolve. -/
theorem c9_has_skeleton_characterization (objs : List SceneObj) :
    (findAndMapBones initSkelState objs).hasSkeleton =
      (hasSkinnedEntry objs || anyBoneResolves objs) := by
  have h := findAndMapBones_hsk objs initSkelState (fun n hn => by simp [initSkelState] at hn)
  simpa [initSkelState] using h.1

/-- Counterexample to C9 as stated: a model consisting of one skinned mesh
whose only skeleton bone is named `"zzz"` (which resolves to no canonical
bone) ends the traversal with `hasSkeleton = true` while the bones map is
still completely empty. -/
theorem c9_counterexample :
    (findAndMapBones initSkelState objsSkinnedOnly).hasSkeleton = true ∧
    (findAndMapBones initSkelState objsSkinnedOnly).bones = initSkelState.bones := by
  constructor
  · decide
  · have hz : specResolve boneZ.name = none := by decide
    have hm : ∀ st : SkelState, mapBone boneZ st = st := by
      intro st
      rw [mapBone_eq_spec, hz]
    show (visitObj initSkelState ⟨true, some [boneZ], false, boneZ⟩).bones = _
    unfold visitObj
    simp only [List.foldl_cons, List.foldl_nil, hm]
    rfl

/-! ## Claims about the per-frame bone update -/

/-- C1: for a canonical bone with a mapped handle (whose rest pose was
recorded with it, as the mapper always does) and a stored previous smoothed
quaternion, one orientation update computes
`smoothed = slerp(previous, target, alpha)`, writes
`restPoseOrientation * smoothed` (rest pose as the left multiplicand of the
Hamilton product) as the bone's local orientation, and stores `smoothed`
itself — not the composed product — as the new previous value. -/
theorem c1_smoothing_and_rest_composition (K : MathK) (s : ℚ) (boneName : String)
    (target : Quat) (st : RigState) (h : ℕ) (p : Quat) (rest : RestTransform)
    (hb : st.bones boneName = some h)
    (hp : st.previousBoneRotations boneName = some p)
    (hr : st.restPose boneName = some rest) :
    (applyBoneRotation K s boneName target st).boneQuat h =
        qmul rest.quaternion (K.slerp p target s) ∧
    (applyBoneRotation K s boneName target st).previousBoneRotations boneName =
        some (K.slerp p target s) := by
  simp [applyBoneRotation, hb, hp, hr]

/-- Witness for C1 at a concrete kernel, state and target. -/
theorem c1_witness :
    (applyBoneRotation K0 (1/4) ("hips") ⟨0, 0, 1, 0⟩ rigHip).boneQuat 2 =
        qmul (⟨0, 1, 0, 0⟩ : Quat) (K0.slerp ⟨1, 0, 0, 0⟩ ⟨0, 0, 1, 0⟩ (1/4)) ∧
    (applyBoneRotation K0 (1/4) ("hips") ⟨0, 0, 1, 0⟩ rigHip).previousBoneRotations ("hips") =
        some (K0.slerp ⟨1, 0, 0, 0⟩ ⟨0, 0, 1, 0⟩ (1/4)) := by
  exact c1_smoothing_and_rest_composition K0 (1/4) ("hips") ⟨0, 0, 1, 0⟩ rigHip 2
    ⟨1, 0, 0, 0⟩ ⟨⟨0, 0, 0⟩, ⟨0, 1, 0, 0⟩⟩ (by decide) (by decide) (by decide)

/-- C10: the very first orientation update of a mapped bone (no previous
smoothed quaternion stored yet) seeds the previous value from the bone's
current local quaternion, so it writes
`restPoseOrientation * slerp(currentLocalQuaternion, target, alpha)` and
stores that slerp result as the new previous value. -/
theorem c10_first_update_seeds_from_current (K : MathK) (s : ℚ) (boneName : String)
    (target : Quat) (st : RigState) (h : ℕ) (rest : RestTransform)
    (hb : st.bones boneName = some h)
    (hp : st.previousBoneRotations boneName = none)
    (hr : st.restPose boneName = some rest) :
    (applyBoneRotation K s boneName target st).boneQuat h =
        qmul rest.quaternion (K.slerp (st.boneQuat h) target s) ∧
    (applyBoneRotation K s boneName target st).previousBoneRotations boneName =
        some (K.slerp (st.boneQuat h) target s) := by
  simp [applyBoneRotation, hb, hp, hr]

/-- Witness for C10 at a concrete kernel and a fresh state. -/
theorem c10_witness :
    (applyBoneRotation K0 (1/4) ("hips") ⟨0, 0, 1, 0⟩ rigHipFresh).boneQuat 2 =
        qmul (⟨0, 1, 0, 0⟩ : Quat) (K0.slerp (rigHipFresh.boneQuat 2) ⟨0, 0, 1, 0⟩ (1/4)) ∧
    (applyBoneRotation K0 (1/4) ("hips") ⟨0, 0, 1, 0⟩ rigHipFresh).previousBoneRotations ("hips") =
        some (K0.slerp (rigHipFresh.boneQuat 2) ⟨0, 0, 1, 0⟩ (1/4)) := by
  exact c10_first_update_seeds_from_current K0 (1/4) ("hips") ⟨0, 0, 1, 0⟩ rigHipFresh 2
    ⟨⟨0, 0, 0⟩, ⟨0, 1, 0, 0⟩⟩ (by decide) (by decide) (by decide)

/-- C8: the coordinate mapper returns `null` exactly when the landmark is
absent, and otherwise maps `(x, y, z)` to
`((0.5 - x) * Sx, (1 - y) * Sy, -z * Sz)` with `Sx = Sy = 2` (the defaults)
and depth scale `Sz = 1`. -/
theorem c8_coordinate_mapper (lms : Landmarks) (i : ℕ) :
    (getPos lms i = none ↔ lms i = none) ∧
    ∀ l, lms i = some l →
      getPos lms i = some ⟨(1/2 - l.x) * 2, (1 - l.y) * 2, -l.z * 1⟩ := by
  constructor
  · cases hl : lms i <;> simp [getPos, hl]
  · intro l hl
    simp [getPos, hl]

/-- Witness for C8 at a concrete frame and landmark. -/
theorem c8_witness :
    (getPos c8lms 0 = none ↔ c8lms 0 = none) ∧
    getPos c8lms 0 = some ⟨(1/2 - 1/3) * 2, (1 - 1/5) * 2, -(7 : ℚ) * 1⟩ := by
  have h := c8_coordinate_mapper c8lms 0
  exact ⟨h.1, h.2 ⟨1/3, 1/5, 7, 1⟩ rfl⟩

/-! ## Claim about activation visibility -/

/-- C5: activating a cached model sets every other cached asset's visible
flag to `false` and gives the newly active one the character's visibility, so
after any activation at most one cached asset is visible; `setVisible`
likewise always leaves at most one cached asset visible. -/
theorem c5_single_visible_after_activation (st : CacheState) (modelId : ℕ)
    (hcached : (st.cacheVis modelId).isSome) :
    (∀ j, j ≠ modelId →
        (activateModel modelId st).cacheVis j = (st.cacheVis j).map (fun _ => false)) ∧
    (activateModel modelId st).cacheVis modelId =
        (st.cacheVis modelId).map (fun _ => st.charVisible) ∧
    AtMostOneVisible (activateModel modelId st) ∧
    ∀ v, AtMostOneVisible (setVisible v st) := by
  refine ⟨?_, ?_, ?_, ?_⟩
  · intro j hj
    simp [activateModel, hj]
  · simp [activateModel]
  · intro j k hj hk
    by_cases hjm : j = modelId
    · by_cases hkm : k = modelId
      · rw [hjm, hkm]
      · exfalso
        simp [activateModel, hkm] at hk
    · exfalso
      simp [activateModel, hjm] at hj
  · intro v j k hj hk
    cases ha : st.activeModel with
    | none =>
      exfalso
      simp [setVisible, ha] at hj
    | some m =>
      cases v with
      | false =>
        exfalso
        simp [setVisible, ha] at hj
      | true =>
        by_cases hjm : j = m
        · by_cases hkm : k = m
          · rw [hjm, hkm]
          · exfalso
            simp [setVisible, ha, hkm] at hk
        · exfalso
          simp [setVisible, ha, hjm] at hj

/-- Witness for C5: a (bad) state with two cached models both visible;
activating model 1 restores the at-most-one-visible invariant. -/
theorem c5_witness : AtMostOneVisible (activateModel 1 cacheTwo) :=
  (c5_single_visible_after_activation cacheTwo 1 (by decide)).2.2.1

/-! ## Claim about a missing landmark (right wrist) -/

/-- The frame with the right-wrist landmark removed. -/
def maskRW (lms : Landmarks) : Landmarks :=
  fun i => if i = LM_RIGHT_WRIST then none else lms i

/-- Removing the right wrist does not change the mapped position of any other
landmark. -/
theorem getPos_maskRW (lms : Landmarks) (i : ℕ) (h : ¬ i = LM_RIGHT_WRIST) :
    getPos (maskRW lms) i = getPos lms i := by
  simp [getPos, maskRW, h]

/-- With the right wrist absent, the right-arm update is a no-op: the guard
requires shoulder, elbow and wrist together, so the upper arm and forearm are
skipped too. -/
theorem updateArm_right_no_wrist (K : MathK) (s : ℚ) (lms : Landmarks)
    (st : RigState) (hw : lms LM_RIGHT_WRIST = none) :
    updateArm K s lms false st = st := by
  have h16 : getPos lms LM_RIGHT_WRIST = none := by simp [getPos, hw]
  unfold updateArm
  rcases hsh : getPos lms (if false = true then LM_LEFT_SHOULDER else LM_RIGHT_SHOULDER) with _ | v1 <;>
    rcases hel : getPos lms (if false = true then LM_LEFT_ELBOW else LM_RIGHT_ELBOW) with _ | v2 <;>
      simp [hsh, hel, h16]

/-- The spine update reads no right-wrist landmark. -/
theorem updateSpine_maskRW (K : MathK) (s : ℚ) (lms : Landmarks) (st : RigState) :
    updateSpine K s (maskRW lms) st = updateSpine K s lms st := by
  unfold updateSpine
  rw [getPos_maskRW lms LM_LEFT_HIP (by decide), getPos_maskRW lms LM_RIGHT_HIP (by decide),
    getPos_maskRW lms LM_LEFT_SHOULDER (by decide),
    getPos_maskRW lms LM_RIGHT_SHOULDER (by decide)]

/-- The head update reads no right-wrist landmark. -/
theorem updateHead_maskRW (K : MathK) (s : ℚ) (lms : Landmarks) (st : RigState) :
    updateHead K s (maskRW lms) st = updateHead K s lms st := by
  unfold updateHead
  rw [getPos_maskRW lms LM_NOSE (by decide), getPos_maskRW lms LM_LEFT_SHOULDER (by decide),
    getPos_maskRW lms LM_RIGHT_SHOULDER (by decide)]

/-- The left-arm update reads no right-wrist landmark. -/
theorem updateArm_left_maskRW (K : MathK) (s : ℚ) (lms : Landmarks) (st : RigState) :
    updateArm K s (maskRW lms) true st = updateArm K s lms true st := by
  simp [updateArm, getPos_maskRW, LM_LEFT_SHOULDER, LM_LEFT_ELBOW, LM_LEFT_WRIST,
    LM_LEFT_INDEX, LM_RIGHT_WRIST]

/-- Neither leg update reads the right-wrist landmark. -/
theorem updateLeg_maskRW (K : MathK) (s : ℚ) (lms : Landmarks) (isLeft : Bool) (st : RigState) :
    updateLeg K s (maskRW lms) isLeft st = updateLeg K s lms isLeft st := by
  cases isLeft <;>
    simp [updateLeg, getPos_maskRW, LM_LEFT_HIP, LM_RIGHT_HIP, LM_LEFT_KNEE, LM_RIGHT_KNEE,
      LM_LEFT_ANKLE, LM_RIGHT_ANKLE, LM_LEFT_FOOT_INDEX, LM_RIGHT_FOOT_INDEX, LM_RIGHT_WRIST]

/-- C6 (amended): in a frame identical to `lms` except that the right wrist
is absent, the skeleton update behaves exactly like the full-frame update
with the entire right-arm update removed — the arm updater requires
shoulder, elbow and wrist together and otherwise leaves all its bones (upper
arm, forearm, hand) at their previous orientation, while every bone of the
other update groups is updated exactly as with the complete frame. -/
theorem c6_missing_wrist_skips_whole_arm_group (K : MathK) (s : ℚ)
    (lms : Landmarks) (st : RigState) :
    updateSkeleton K s (maskRW lms) st =
      updateLeg K s lms false
        (updateLeg K s lms true
          (updateArm K s lms true
            (updateHead K s lms
              (updateSpine K s lms st)))) := by
  unfold updateSkeleton
  rw [updateSpine_maskRW, updateHead_maskRW, updateArm_left_maskRW,
    updateArm_right_no_wrist K s (maskRW lms) _ (by simp [maskRW]),
    updateLeg_maskRW, updateLeg_maskRW]

/-- Counterexample to C6 as stated: with only the right wrist absent, the
right upper arm — whose mapping rule uses only the shoulder and elbow
landmarks, both present — is nevertheless skipped (its previous smoothed
orientation stays unset), although the full frame does update it. -/
theorem c6_counterexample :
    (updateSkeleton K0 (1/4) lmsNoRWrist rigRArm).previousBoneRotations ("rightUpperArm") = none ∧
    (updateSkeleton K0 (1/4) fullLms rigRArm).previousBoneRotations ("rightUpperArm") ≠ none := by
  decide

/-! ## Claim about yaw wrapping -/

/-- Counterexample to C7 as stated: the wrapped difference is claimed to lie
in the half-open interval `(-pi, pi]`, but at a difference of exactly `-pi`
neither conditional of the source fires and the wrapped value is `-pi`
itself, outside `(-pi, pi]`.  (`Math.PI` is a parameter of the embedding;
the failure is uniform in it and is exhibited here at the sample value 3:
target yaw 0, previous smoothed yaw 3.) -/
theorem c7_counterexample :
    wrapRotDiff 3 ((0 : ℚ) - 3) = -3 ∧ (-3 : ℚ) ∉ Set.Ioc (-3 : ℚ) 3 := by
  constructor
  · norm_num [wrapRotDiff]
  · simp [Set.mem_Ioc]

/-- C7 (amended): whenever the raw difference between target yaw and previous
smoothed yaw lies within `[-3*pi, 3*pi]` (in particular whenever both lie in
`[-pi, pi]`), the wrap brings it into the closed interval `[-pi, pi]`, and
the smoothed yaw consequently changes by at most `smoothing * pi` in
magnitude — it never spins the long way around. -/
theorem c7_yaw_wrap_bounded (pi s prev target : ℚ) (hpi : 0 < pi) (hs : 0 ≤ s)
    (hd : |target - prev| ≤ 3 * pi) :
    wrapRotDiff pi (target - prev) ∈ Set.Icc (-pi) pi ∧
    |smoothYaw pi s prev target - prev| ≤ s * pi := by
  rw [abs_le] at hd
  obtain ⟨hl, hr⟩ := hd
  have h1 : wrapRotDiff pi (target - prev) ∈ Set.Icc (-pi) pi := by
    rw [Set.mem_Icc]
    unfold wrapRotDiff
    dsimp only
    split_ifs <;> constructor <;> linarith
  refine ⟨h1, ?_⟩
  have h2 : smoothYaw pi s prev target - prev = wrapRotDiff pi (target - prev) * s := by
    unfold smoothYaw
    ring
  rw [Set.mem_Icc] at h1
  have habs : |wrapRotDiff pi (target - prev)| ≤ pi := abs_le.mpr h1
  calc |smoothYaw pi s prev target - prev|
      = |wrapRotDiff pi (target - prev)| * |s| := by rw [h2, abs_mul]
    _ = |wrapRotDiff pi (target - prev)| * s := by rw [abs_of_nonneg hs]
    _ ≤ pi * s := mul_le_mul_of_nonneg_right habs hs
    _ = s * pi := mul_comm pi s

/-- Witness for C7 (amended) at `pi = 3`, smoothing `1/4`, previous yaw 3,
target yaw 0. -/
theorem c7_witness :
    wrapRotDiff 3 ((0 : ℚ) - 3) ∈ Set.Icc (-3 : ℚ) 3 ∧
    |smoothYaw 3 (1/4) 3 0 - 3| ≤ (1/4 : ℚ) * 3 := by
  exact c7_yaw_wrap_bounded 3 (1/4) 3 0 (by norm_num) (by norm_num) (by norm_num)

/-! ## Claim about at-most-one load in flight -/

/-- Updating a task's program counter at its own index. -/
theorem updTask_self (f : Bool → TaskPC) (w : Bool) (pc : TaskPC) :
    updTask f w pc w = pc := by
  simp [updTask]

/-- Updating a task's program counter leaves the other task unchanged. -/
theorem updTask_ne (f : Bool → TaskPC) (w : Bool) (pc : TaskPC) (b : Bool)
    (h : ¬ b = w) : updTask f w pc b = f b := by
  simp [updTask, h]

/-- Reading an updated task table: either the read index is the written one
and yields the new counter, or it is the other index and yields the old
value. -/
theorem tasksUpd_cases {f : Bool → TaskPC} {w : Bool} {pc : TaskPC} {b : Bool}
    {pc' : TaskPC} (hb : updTask f w pc b = pc') :
    (b = w ∧ pc = pc') ∨ (¬ b = w ∧ f b = pc') := by
  by_cases hbw : b = w
  · subst hbw
    rw [updTask_self] at hb
    exact Or.inl ⟨rfl, hb⟩
  · rw [updTask_ne f w pc b hbw] at hb
    exact Or.inr ⟨hbw, hb⟩

/-- Inductive invariant of the two-caller loading system: at most one parse
was started; a parse was started exactly when a promise is pending or the
asset is cached; the cached asset is the unique built one; owners (tasks
between `startLoad` and their return) are unique and hold a pending promise;
finished tasks observed the cached asset. -/
structure LoadInv (s : LoadSys) : Prop where
  count_le : s.parseCount ≤ 1
  busy_count : s.pending = true ∨ s.cacheAsset.isSome → s.parseCount = 1
  count_busy : 1 ≤ s.parseCount → s.pending = true ∨ s.cacheAsset.isSome
  cache_one : ∀ a, s.cacheAsset = some a → a = 1
  resolved_cache : s.resolved = true → s.cacheAsset = some 1
  current_cache : s.current = true → s.cacheAsset = some 1
  run_state : ∀ w, s.tasks w = .tRunOwn →
    s.pending = true ∧ s.resolved = false ∧ s.cacheAsset = none
  res_state : ∀ w, s.tasks w = .tResolvedOwn →
    s.pending = true ∧ s.cacheAsset = some 1
  done_state : ∀ w a, s.tasks w = .tDone a → a = 1 ∧ s.cacheAsset = some 1
  owner_unique : ∀ w w', (s.tasks w = .tRunOwn ∨ s.tasks w = .tResolvedOwn) →
    (s.tasks w' = .tRunOwn ∨ s.tasks w' = .tResolvedOwn) → w = w'

/-- The invariant holds initially. -/
theorem load_inv_init : LoadInv initLoadSys := by
  refine ⟨?_, ?_, ?_, ?_, ?_, ?_, ?_, ?_, ?_, ?_⟩
  · exact Nat.zero_le 1
  · intro hyp
    rcases hyp with hyp | hyp <;> simp [initLoadSys] at hyp
  · intro hyp
    simp [initLoadSys] at hyp
  · intro a ha
    simp [initLoadSys] at ha
  · intro hr
    simp [initLoadSys] at hr
  · intro hc
    simp [initLoadSys] at hc
  · intro b hb
    simp [initLoadSys] at hb
  · intro b hb
    simp [initLoadSys] at hb
  · intro b a hb
    simp [initLoadSys] at hb
  · intro b b' hb _
    rcases hb with hb | hb <;> simp [initLoadSys] at hb

/-- The invariant is preserved by every atomic segment. -/
theorem load_inv_step {s s' : LoadSys} (h : LoadInv s) (hs : LoadStep s s') :
    LoadInv s' := by
  cases hs with
  | currentHit w a hw hcur hca =>
    refine ⟨h.count_le, h.busy_count, h.count_busy, h.cache_one, h.resolved_cache,
      h.current_cache, ?_, ?_, ?_, ?_⟩
    · intro b hb
      rcases tasksUpd_cases hb with ⟨_, hpc⟩ | ⟨_, hold⟩
      · simp at hpc
      · exact h.run_state b hold
    · intro b hb
      rcases tasksUpd_cases hb with ⟨_, hpc⟩ | ⟨_, hold⟩
      · simp at hpc
      · exact h.res_state b hold
    · intro b a' hb
      rcases tasksUpd_cases hb with ⟨_, hpc⟩ | ⟨_, hold⟩
      · injection hpc with haa
        have h1 := h.cache_one a hca
        exact ⟨haa ▸ h1, by rw [hca, h1]⟩
      · exact h.done_state b a' hold
    · intro b b' hb hb'
      have hb2 : s.tasks b = .tRunOwn ∨ s.tasks b = .tResolvedOwn := by
        rcases hb with hb | hb <;> rcases tasksUpd_cases hb with ⟨_, hpc⟩ | ⟨_, hold⟩ <;>
          first
          | simp at hpc
          | exact Or.inl hold
          | exact Or.inr hold
      have hb2' : s.tasks b' = .tRunOwn ∨ s.tasks b' = .tResolvedOwn := by
        rcases hb' with hb' | hb' <;> rcases tasksUpd_cases hb' with ⟨_, hpc⟩ | ⟨_, hold⟩ <;>
          first
          | simp at hpc
          | exact Or.inl hold
          | exact Or.inr hold
      exact h.owner_unique b b' hb2 hb2'
  | waitExisting w hw hcur hp =>
    refine ⟨h.count_le, h.busy_count, h.count_busy, h.cache_one, h.resolved_cache,
      h.current_cache, ?_, ?_, ?_, ?_⟩
    · intro b hb
      rcases tasksUpd_cases hb with ⟨_, hpc⟩ | ⟨_, hold⟩
      · simp at hpc
      · exact h.run_state b hold
    · intro b hb
      rcases tasksUpd_cases hb with ⟨_, hpc⟩ | ⟨_, hold⟩
      · simp at hpc
      · exact h.res_state b hold
    · intro b a' hb
      rcases tasksUpd_cases hb with ⟨_, hpc⟩ | ⟨_, hold⟩
      · simp at hpc
      · exact h.done_state b a' hold
    · intro b b' hb hb'
      have hb2 : s.tasks b = .tRunOwn ∨ s.tasks b = .tResolvedOwn := by
        rcases hb with hb | hb <;> rcases tasksUpd_cases hb with ⟨_, hpc⟩ | ⟨_, hold⟩ <;>
          first
          | simp at hpc
          | exact Or.inl hold
          | exact Or.inr hold
      have hb2' : s.tasks b' = .tRunOwn ∨ s.tasks b' = .tResolvedOwn := by
        rcases hb' with hb' | hb' <;> rcases tasksUpd_cases hb' with ⟨_, hpc⟩ | ⟨_, hold⟩ <;>
          first
          | simp at hpc
          | exact Or.inl hold
          | exact Or.inr hold
      exact h.owner_unique b b' hb2 hb2'
  | cacheHit w a hw hcur hp hca =>
    refine ⟨h.count_le, h.busy_count, h.count_busy, h.cache_one, h.resolved_cache, ?_,
      ?_, ?_, ?_, ?_⟩
    · intro _
      rw [hca, h.cache_one a hca]
    · intro b hb
      rcases tasksUpd_cases hb with ⟨_, hpc⟩ | ⟨_, hold⟩
      · simp at hpc
      · exact h.run_state b hold
    · intro b hb
      rcases tasksUpd_cases hb with ⟨_, hpc⟩ | ⟨_, hold⟩
      · simp at hpc
      · exact h.res_state b hold
    · intro b a' hb
      rcases tasksUpd_cases hb with ⟨_, hpc⟩ | ⟨_, hold⟩
      · injection hpc with haa
        have h1 := h.cache_one a hca
        exact ⟨haa ▸ h1, by rw [hca, h1]⟩
      · exact h.done_state b a' hold
    · intro b b' hb hb'
      have hb2 : s.tasks b = .tRunOwn ∨ s.tasks b = .tResolvedOwn := by
        rcases hb with hb | hb <;> rcases tasksUpd_cases hb with ⟨_, hpc⟩ | ⟨_, hold⟩ <;>
          first
          | simp at hpc
          | exact Or.inl hold
          | exact Or.inr hold
      have hb2' : s.tasks b' = .tRunOwn ∨ s.tasks b' = .tResolvedOwn := by
        rcases hb' with hb' | hb' <;> rcases tasksUpd_cases hb' with ⟨_, hpc⟩ | ⟨_, hold⟩ <;>
          first
          | simp at hpc
          | exact Or.inl hold
          | exact Or.inr hold
      exact h.owner_unique b b' hb2 hb2'
  | startLoad w hw hcur hp hca =>
    have hc0 : s.parseCount = 0 := by
      rcases Nat.eq_zero_or_pos s.parseCount with h0 | hpos
      · exact h0
      · rcases h.count_busy hpos with hpend | hsome
        · rw [hp] at hpend
          simp at hpend
        · rw [hca] at hsome
          simp at hsome
    have hres : s.resolved = false := by
      cases hres : s.resolved
      · rfl
      · have h2 := h.resolved_cache hres
        rw [hca] at h2
        simp at h2
    refine ⟨?_, ?_, ?_, h.cache_one, h.resolved_cache, h.current_cache, ?_, ?_, ?_, ?_⟩
    · show s.parseCount + 1 ≤ 1
      rw [hc0]
    · intro _
      show s.parseCount + 1 = 1
      rw [hc0]
    · intro _
      exact Or.inl rfl
    · intro b hb
      rcases tasksUpd_cases hb with ⟨_, _⟩ | ⟨_, hold⟩
      · exact ⟨rfl, hres, hca⟩
      · have h2 := (h.run_state b hold).1
        rw [hp] at h2
        simp at h2
    · intro b hb
      rcases tasksUpd_cases hb with ⟨_, hpc⟩ | ⟨_, hold⟩
      · simp at hpc
      · have h2 := (h.res_state b hold).1
        rw [hp] at h2
        simp at h2
    · intro b a' hb
      rcases tasksUpd_cases hb with ⟨_, hpc⟩ | ⟨_, hold⟩
      · simp at hpc
      · have h2 := (h.done_state b a' hold).2
        rw [hca] at h2
        simp at h2
    · intro b b' hb hb'
      have key : ∀ c, (updTask s.tasks w .tRunOwn c = .tRunOwn ∨
          updTask s.tasks w .tRunOwn c = .tResolvedOwn) → c = w := by
        intro c hc
        by_cases hcw : c = w
        · exact hcw
        · exfalso
          rw [updTask_ne s.tasks w .tRunOwn c hcw] at hc
          rcases hc with hc | hc
          · have h2 := (h.run_state c hc).1
            rw [hp] at h2
            simp at h2
          · have h2 := (h.res_state c hc).1
            rw [hp] at h2
            simp at h2
      rw [key b hb, key b' hb']
  | parseDone w hw =>
    obtain ⟨hpend, hres0, hcac⟩ := h.run_state w hw
    refine ⟨h.count_le, ?_, ?_, ?_, ?_, ?_, ?_, ?_, ?_, ?_⟩
    · intro _
      exact h.busy_count (Or.inl hpend)
    · intro _
      exact Or.inr rfl
    · intro a ha
      cases ha
      rfl
    · intro _
      rfl
    · intro _
      rfl
    · intro b hb
      rcases tasksUpd_cases hb with ⟨_, hpc⟩ | ⟨hbw, hold⟩
      · simp at hpc
      · exact absurd (h.owner_unique b w (Or.inl hold) (Or.inl hw)) hbw
    · intro b hb
      rcases tasksUpd_cases hb with ⟨_, _⟩ | ⟨hbw, hold⟩
      · exact ⟨hpend, rfl⟩
      · exact absurd (h.owner_unique b w (Or.inr hold) (Or.inl hw)) hbw
    · intro b a' hb
      rcases tasksUpd_cases hb with ⟨_, hpc⟩ | ⟨_, hold⟩
      · simp at hpc
      · exact ⟨(h.done_state b a' hold).1, rfl⟩
    · intro b b' hb hb'
      have key : ∀ c, (updTask s.tasks w .tResolvedOwn c = .tRunOwn ∨
          updTask s.tasks w .tResolvedOwn c = .tResolvedOwn) → c = w := by
        intro c hc
        by_cases hcw : c = w
        · exact hcw
        · rw [updTask_ne s.tasks w .tResolvedOwn c hcw] at hc
          exact absurd (h.owner_unique c w hc (Or.inl hw)) hcw
      rw [key b hb, key b' hb']
  | ownerReturn w hw =>
    obtain ⟨hpend, hcac⟩ := h.res_state w hw
    refine ⟨h.count_le, ?_, ?_, h.cache_one, h.resolved_cache, h.current_cache,
      ?_, ?_, ?_, ?_⟩
    · intro _
      exact h.busy_count (Or.inr (by rw [hcac]; rfl))
    · intro _
      exact Or.inr (by rw [hcac]; rfl)
    · intro b hb
      rcases tasksUpd_cases hb with ⟨_, hpc⟩ | ⟨hbw, hold⟩
      · simp at hpc
      · exact absurd (h.owner_unique b w (Or.inl hold) (Or.inr hw)) hbw
    · intro b hb
      rcases tasksUpd_cases hb with ⟨_, hpc⟩ | ⟨hbw, hold⟩
      · simp at hpc
      · exact absurd (h.owner_unique b w (Or.inr hold) (Or.inr hw)) hbw
    · intro b a' hb
      rcases tasksUpd_cases hb with ⟨_, hpc⟩ | ⟨_, hold⟩
      · injection hpc with haa
        exact ⟨haa.symm, hcac⟩
      · exact h.done_state b a' hold
    · intro b b' hb hb'
      have hb2 : s.tasks b = .tRunOwn ∨ s.tasks b = .tResolvedOwn := by
        rcases hb with hb | hb <;> rcases tasksUpd_cases hb with ⟨_, hpc⟩ | ⟨_, hold⟩ <;>
          first
          | simp at hpc
          | exact Or.inl hold
          | exact Or.inr hold
      have hb2' : s.tasks b' = .tRunOwn ∨ s.tasks b' = .tResolvedOwn := by
        rcases hb' with hb' | hb' <;> rcases tasksUpd_cases hb' with ⟨_, hpc⟩ | ⟨_, hold⟩ <;>
          first
          | simp at hpc
          | exact Or.inl hold
          | exact Or.inr hold
      exact h.owner_unique b b' hb2 hb2'
  | waiterWake w a hw hres hca =>
    have ha1 : a = 1 := h.cache_one a hca
    refine ⟨h.count_le, h.busy_count, h.count_busy, h.cache_one, h.resolved_cache, ?_,
      ?_, ?_, ?_, ?_⟩
    · intro _
      rw [hca, ha1]
    · intro b hb
      rcases tasksUpd_cases hb with ⟨_, hpc⟩ | ⟨_, hold⟩
      · simp at hpc
      · exact h.run_state b hold
    · intro b hb
      rcases tasksUpd_cases hb with ⟨_, hpc⟩ | ⟨_, hold⟩
      · simp at hpc
      · exact h.res_state b hold
    · intro b a' hb
      rcases tasksUpd_cases hb with ⟨_, hpc⟩ | ⟨_, hold⟩
      · injection hpc with haa
        exact ⟨haa ▸ ha1, by rw [hca, ha1]⟩
      · exact h.done_state b a' hold
    · intro b b' hb hb'
      have hb2 : s.tasks b = .tRunOwn ∨ s.tasks b = .tResolvedOwn := by
        rcases hb with hb | hb <;> rcases tasksUpd_cases hb with ⟨_, hpc⟩ | ⟨_, hold⟩ <;>
          first
          | simp at hpc
          | exact Or.inl hold
          | exact Or.inr hold
      have hb2' : s.tasks b' = .tRunOwn ∨ s.tasks b' = .tResolvedOwn := by
        rcases hb' with hb' | hb' <;> rcases tasksUpd_cases hb' with ⟨_, hpc⟩ | ⟨_, hold⟩ <;>
          first
          | simp at hpc
          | exact Or.inl hold
          | exact Or.inr hold
      exact h.owner_unique b b' hb2 hb2'

/-- The invariant holds in every reachable state. -/
theorem load_inv_reach (s : LoadSys) (hre : LoadReach initLoadSys s) : LoadInv s := by
  induction hre with
  | refl => exact load_inv_init
  | tail _ hbc ih => exact load_inv_step ih hbc

/-- C4: in every reachable state of two concurrent `loadModel` calls for the
same unseen id, at most one parse/build operation was ever started, and when
both calls have returned they observed the same asset and exactly one parse
happened. -/
theorem c4_at_most_one_load (s : LoadSys) (hre : LoadReach initLoadSys s) :
    s.parseCount ≤ 1 ∧
    ∀ a b, s.tasks true = .tDone a → s.tasks false = .tDone b →
      a = b ∧ s.parseCount = 1 := by
  have h := load_inv_reach s hre
  refine ⟨h.count_le, ?_⟩
  intro a b ha hb
  obtain ⟨ha1, hc⟩ := h.done_state true a ha
  obtain ⟨hb1, _⟩ := h.done_state false b hb
  refine ⟨ha1.trans hb1.symm, ?_⟩
  exact h.busy_count (Or.inr (by rw [hc]; rfl))

/-- Witness for C4 along a concrete interleaving: the first caller starts
the load, the parse completes, the first caller returns, and the second
caller then hits the current-model early return; both observe asset 1 and
exactly one parse happened. -/
theorem c4_witness :
    c4Sys4.parseCount = 1 ∧ c4Sys4.tasks true = .tDone 1 ∧ c4Sys4.tasks false = .tDone 1 := by
  have h1 : LoadStep initLoadSys c4Sys1 := LoadStep.startLoad initLoadSys true rfl rfl rfl rfl
  have h2 : LoadStep c4Sys1 c4Sys2 := LoadStep.parseDone c4Sys1 true (by decide)
  have h3 : LoadStep c4Sys2 c4Sys3 := LoadStep.ownerReturn c4Sys2 true (by decide)
  have h4 : LoadStep c4Sys3 c4Sys4 := LoadStep.currentHit c4Sys3 false 1 (by decide) rfl rfl
  have hre : LoadReach initLoadSys c4Sys4 :=
    Relation.ReflTransGen.tail
      (Relation.ReflTransGen.tail
        (Relation.ReflTransGen.tail (Relation.ReflTransGen.single h1) h2) h3) h4
  have h := c4_at_most_one_load c4Sys4 hre
  exact ⟨(h.2 1 1 (by decide) (by decide)).2, by decide, by decide⟩
